import Mathlib

/-!
Verification of the chain-metadata-to-parameter resolver of `pop-cli`
(crates/pop-parachains/src/call/metadata/{params.rs, mod.rs}).

The Rust code is shallowly embedded: the `scale_info` portable registry is a
finite association list from numeric type ids to type descriptors, and the
recursive resolver `type_to_param` is given an explicit fuel argument (the
Rust recursion has no syntactic bound; fuel exhaustion is modelled as `none`,
while every result the Rust function actually produces is `some (ok _)` or
`some (error _)`).
-/

namespace Pop

/-- Type parameter of a registry type (scale_info `TypeParameter<PortableForm>`):
a declared name and an optional concrete type id. -/
structure TypeParam where
  name : String
  ty : Option Nat
  deriving DecidableEq, Repr

/-- Field of a composite or variant type (scale_info `Field<PortableForm>`):
optional field name, type id, optional declared type-name string. -/
structure Field where
  name : Option String
  ty : Nat
  type_name : Option String
  deriving DecidableEq, Repr

/-- Variant arm / call variant (scale_info `Variant<PortableForm>`): a name, an
ordered field list and documentation lines. The numeric index is not consulted
by the code under verification and is omitted. -/
structure Variant where
  name : String
  fields : List Field
  docs : List String
  deriving DecidableEq, Repr

/-- Shape discriminant of a registry type (scale_info `TypeDef<PortableForm>`).
The resolver only consults the payloads of `composite` and `variant`; array,
sequence, tuple and compact are treated as opaque leaves and `bitSequence`
stands for every shape the resolver has no rule for (the `_` arm). -/
inductive TypeDef where
  | primitive (kind : String)
  | composite (fields : List Field)
  | variant (variants : List Variant)
  | array
  | sequence
  | tuple
  | compact
  | bitSequence
  deriving DecidableEq, Repr

/-- Registry type descriptor (scale_info `Type<PortableForm>`): path segments,
declared type parameters and the shape. -/
structure TypeInfo where
  path : List String
  type_params : List TypeParam
  type_def : TypeDef
  deriving DecidableEq, Repr

/-- The portable registry: a flat, id-indexed collection of type descriptors. -/
abbrev Registry := List (Nat × TypeInfo)

/-- Registry lookup (`PortableRegistry::resolve`): first entry with the given id. -/
def resolve (registry : Registry) (type_id : Nat) : Option TypeInfo :=
  (List.find? (fun e => e.fst = type_id) registry).map (fun e => e.snd)

/-- The error variants of `pop_parachains::errors::Error` used by the call
metadata module. -/
inductive Error where
  | ExtrinsicNotSupported (extrinsic : String)
  | MetadataParsingError (name : String)
  | PalletNotFound (name : String)
  | ParamProcessingError
  deriving DecidableEq, Repr

/-- Parameter descriptor produced by the resolver (`Param` in mod.rs). -/
structure Param where
  name : String
  type_name : String
  is_optional : Bool
  sub_params : List Param
  is_variant : Bool
  deriving Repr

/-- Extrinsic descriptor (`Extrinsic` in mod.rs). -/
structure Extrinsic where
  name : String
  docs : String
  params : List Param
  is_supported : Bool
  deriving Repr

/-- Pallet descriptor (`Pallet` in mod.rs). -/
structure Pallet where
  name : String
  docs : String
  extrinsics : List Extrinsic
  deriving Repr

/-- Metadata view of one pallet as exposed by subxt: name, doc lines, and the
call variants (`pallet.call_variants()` returns an `Option`). -/
structure PalletMeta where
  name : String
  docs : List String
  call_variants : Option (List Variant)
  deriving Repr

/-- Modelled from the spec: `format_type` lives in the `pop-common` crate, whose
source is not part of the provided files. Per the spec it is a deterministic,
shared formatter producing a human-readable rendering of the declared type,
generic parameters rendered with it (for example an enum with path ending in
`MyEnum` and no parameters renders as "MyEnum"). We render the last path
segment followed by the declared type-parameter names in angle brackets, the
primitive kind for path-less primitives, and a fixed shape word otherwise. -/
def format_type (type_info : TypeInfo) (_registry : Registry) : String :=
  match type_info.path.getLast? with
  | some segment =>
      if type_info.type_params.isEmpty then segment
      else segment ++ "<" ++ String.intercalate ", " (type_info.type_params.map (fun p => p.name)) ++ ">"
  | none =>
      match type_info.type_def with
      | .primitive kind => kind
      | .composite _ => "struct"
      | .variant _ => "enum"
      | .array => "array"
      | .sequence => "vec"
      | .tuple => "tuple"
      | .compact => "compact"
      | .bitSequence => "bitvec"

/-- The disallow-list check on the path (params.rs lines 39-43): the last path
segment equals "RuntimeCall". -/
def pathIsRuntimeCall (type_info : TypeInfo) : Bool :=
  match type_info.path.getLast? with
  | some last_segment => last_segment = "RuntimeCall"
  | none => false

/-- The disallow-list check on the declared type parameters (params.rs lines
44-51): some parameter is named as the dispatchable-call aggregate, directly or
as a sequence of it. -/
def paramIsRuntimeCall (type_info : TypeInfo) : Bool :=
  type_info.type_params.any (fun param =>
    param.name = "RuntimeCall" ||
      param.name = "Vec<RuntimeCall>" ||
      param.name = "Vec<<T as Config>::RuntimeCall>")

/-- Short-circuiting collection of fallible sub-results, the embedding of
Rust's `iter().map(...).collect::<Result<Vec<_>, Error>>()`: the first error
wins and later elements are not evaluated; `none` (fuel exhaustion) of an
element propagates. -/
def mapCollect (f : α → Option (Except Error β)) : List α → Option (Except Error (List β))
  | [] => some (.ok [])
  | a :: as =>
    match f a with
    | none => none
    | some (.error e) => some (.error e)
    | some (.ok b) =>
      match mapCollect f as with
      | none => none
      | some (.error e) => some (.error e)
      | some (.ok bs) => some (.ok (b :: bs))

/-- The recursive resolver `type_to_param` (params.rs lines 31-144), fuel-indexed.
Step order is the source's: registry lookup (missing id yields
`MetadataParsingError(name)`); the two disallow-list checks yielding
`ExtrinsicNotSupported(extrinsic_name)`; the `Option` unwrap recursing into the
first type parameter; otherwise the shape dispatch. -/
def type_to_param (fuel : Nat) (extrinsic_name name : String) (registry : Registry)
    (type_id : Nat) (type_name : Option String) : Option (Except Error Param) :=
  match fuel with
  | 0 => none
  | fuel + 1 =>
    match resolve registry type_id with
    | none => some (.error (.MetadataParsingError name))
    | some type_info =>
      if pathIsRuntimeCall type_info then
        some (.error (.ExtrinsicNotSupported extrinsic_name))
      else if paramIsRuntimeCall type_info then
        some (.error (.ExtrinsicNotSupported extrinsic_name))
      else if type_info.path = ["Option"] then
        match (type_info.type_params.get? 0).bind (fun param => param.ty) with
        | some sub_type_id =>
          match type_to_param fuel extrinsic_name name registry sub_type_id type_name with
          | none => none
          | some (.error e) => some (.error e)
          | some (.ok sub_param) =>
            some (.ok { name := name, type_name := sub_param.type_name,
                        is_optional := true, sub_params := sub_param.sub_params,
                        is_variant := false })
        | none => some (.error (.MetadataParsingError name))
      else
        let type_name := format_type type_info registry
        match type_info.type_def with
        | .primitive _ =>
          some (.ok { name := name, type_name := type_name, is_optional := false,
                      sub_params := [], is_variant := false })
        | .composite fields =>
          match mapCollect (fun field =>
              type_to_param fuel extrinsic_name (field.name.getD name) registry
                field.ty field.type_name) fields with
          | none => none
          | some (.error e) => some (.error e)
          | some (.ok sub_params) =>
            some (.ok { name := name, type_name := type_name, is_optional := false,
                        sub_params := sub_params, is_variant := false })
        | .variant variants =>
          match mapCollect (fun variant_param =>
              match mapCollect (fun field =>
                  type_to_param fuel extrinsic_name
                    (field.name.getD variant_param.name) registry
                    field.ty field.type_name) variant_param.fields with
              | none => none
              | some (.error e) => some (.error e)
              | some (.ok variant_sub_params) =>
                some (.ok { name := variant_param.name, type_name := "",
                            is_optional := false, sub_params := variant_sub_params,
                            is_variant := true })) variants with
          | none => none
          | some (.error e) => some (.error e)
          | some (.ok variant_params) =>
            some (.ok { name := name, type_name := type_name, is_optional := false,
                        sub_params := variant_params, is_variant := true })
        | .array =>
          some (.ok { name := name, type_name := type_name, is_optional := false,
                      sub_params := [], is_variant := false })
        | .sequence =>
          some (.ok { name := name, type_name := type_name, is_optional := false,
                      sub_params := [], is_variant := false })
        | .tuple =>
          some (.ok { name := name, type_name := type_name, is_optional := false,
                      sub_params := [], is_variant := false })
        | .compact =>
          some (.ok { name := name, type_name := type_name, is_optional := false,
                      sub_params := [], is_variant := false })
        | .bitSequence => some (.error (.MetadataParsingError name))

/-- The field-level entry point `field_to_param` (params.rs lines 13-22):
unnamed fields get the display name "Unnamed". -/
def field_to_param (fuel : Nat) (registry : Registry) (extrinsic_name : String)
    (field : Field) : Option (Except Error Param) :=
  type_to_param fuel extrinsic_name (field.name.getD "Unnamed") registry
    field.ty field.type_name

/-- The per-extrinsic field loop of `parse_chain_metadata` (mod.rs lines 73-88):
push each resolved field; on `ExtrinsicNotSupported` clear everything collected
so far and stop with the unsupported flag; return any other error. The result
pairs the collected params with the `is_supported` flag. -/
def parse_params (fuel : Nat) (registry : Registry) (extrinsic_name : String) :
    List Field → Option (Except Error (List Param × Bool))
  | [] => some (.ok ([], true))
  | field :: fields =>
    match field_to_param fuel registry extrinsic_name field with
    | none => none
    | some (.error (.ExtrinsicNotSupported _)) => some (.ok ([], false))
    | some (.error e) => some (.error e)
    | some (.ok param) =>
      match parse_params fuel registry extrinsic_name fields with
      | none => none
      | some (.error e) => some (.error e)
      | some (.ok (params, true)) => some (.ok (param :: params, true))
      | some (.ok (_, false)) => some (.ok ([], false))

/-- Construction of one `Extrinsic` from one call variant (mod.rs lines 69-101):
documentation lines are concatenated when supported, replaced by the fixed
placeholder otherwise. -/
def parse_extrinsic (fuel : Nat) (registry : Registry) (variant : Variant) :
    Option (Except Error Extrinsic) :=
  match parse_params fuel registry variant.name variant.fields with
  | none => none
  | some (.error e) => some (.error e)
  | some (.ok (params, is_supported)) =>
    some (.ok { name := variant.name,
                docs := if is_supported then String.join variant.docs
                        else "Extrinsic Not Supported",
                params := params,
                is_supported := is_supported })

/-- Construction of one `Pallet` (mod.rs lines 61-111): a pallet with no call
variants gets an empty extrinsic list; pallet docs are joined with spaces. -/
def parse_pallet (fuel : Nat) (registry : Registry) (pallet : PalletMeta) :
    Option (Except Error Pallet) :=
  match (match pallet.call_variants with
         | some variants => mapCollect (parse_extrinsic fuel registry) variants
         | none => some (.ok [])) with
  | none => none
  | some (.error e) => some (.error e)
  | some (.ok extrinsics) =>
    some (.ok { name := pallet.name,
                docs := String.intercalate " " pallet.docs,
                extrinsics := extrinsics })

/-- The whole-metadata parse `parse_chain_metadata` (mod.rs lines 56-115). -/
def parse_chain_metadata (fuel : Nat) (registry : Registry)
    (pallets : List PalletMeta) : Option (Except Error (List Pallet)) :=
  mapCollect (parse_pallet fuel registry) pallets

end Pop

namespace Pop

/-! ### Helper lemmas about short-circuiting collection -/

theorem mapCollect_ok_forall₂ {α β : Type} {f : α → Option (Except Error β)} :
    ∀ {l : List α} {bs : List β}, mapCollect f l = some (.ok bs) →
      List.Forall₂ (fun a b => f a = some (.ok b)) l bs := by
  intro l
  induction l with
  | nil =>
    intro bs h
    simp only [mapCollect, Option.some.injEq, Except.ok.injEq] at h
    subst h
    exact List.Forall₂.nil
  | cons a as ih =>
    intro bs h
    simp only [mapCollect] at h
    cases hfa : f a with
    | none => rw [hfa] at h; simp at h
    | some r =>
      cases r with
      | error e => rw [hfa] at h; simp at h
      | ok b =>
        rw [hfa] at h
        cases hrec : mapCollect f as with
        | none => rw [hrec] at h; simp at h
        | some r2 =>
          cases r2 with
          | error e => rw [hrec] at h; simp at h
          | ok bs' =>
            rw [hrec] at h
            simp only [Option.some.injEq, Except.ok.injEq] at h
            subst h
            exact List.Forall₂.cons hfa (ih hrec)

theorem forall₂_mapCollect {α β : Type} {f : α → Option (Except Error β)} :
    ∀ {l : List α} {bs : List β},
      List.Forall₂ (fun a b => f a = some (.ok b)) l bs →
      mapCollect f l = some (.ok bs) := by
  intro l bs h
  induction h with
  | nil => rfl
  | cons hab _ ih =>
    simp only [mapCollect, hab, ih]

theorem mapCollect_none {α β : Type} {f : α → Option (Except Error β)} :
    ∀ {l : List α}, mapCollect f l = none → ∃ a ∈ l, f a = none := by
  intro l
  induction l with
  | nil => intro h; simp [mapCollect] at h
  | cons a as ih =>
    intro h
    simp only [mapCollect] at h
    cases hfa : f a with
    | none => exact ⟨a, List.mem_cons_self a as, hfa⟩
    | some r =>
      cases r with
      | error e => rw [hfa] at h; simp at h
      | ok b =>
        rw [hfa] at h
        cases hrec : mapCollect f as with
        | none =>
          obtain ⟨x, hx, hfx⟩ := ih hrec
          exact ⟨x, List.mem_cons_of_mem a hx, hfx⟩
        | some r2 =>
          cases r2 with
          | error e => rw [hrec] at h; simp at h
          | ok bs => rw [hrec] at h; simp at h

theorem mapCollect_error_of_first {α β : Type} {f : α → Option (Except Error β)}
    {e : Error} :
    ∀ {l₁ : List α} {a : α} (l₂ : List α),
      (∀ x ∈ l₁, ∃ b, f x = some (.ok b)) → f a = some (.error e) →
      mapCollect f (l₁ ++ a :: l₂) = some (.error e) := by
  intro l₁
  induction l₁ with
  | nil =>
    intro a l₂ _ ha
    simp only [List.nil_append, mapCollect, ha]
  | cons x l₁ ih =>
    intro a l₂ hok ha
    obtain ⟨b, hb⟩ := hok x (List.mem_cons_self x l₁)
    have hrec := ih l₂ (fun y hy => hok y (List.mem_cons_of_mem x hy)) ha
    rw [List.cons_append]
    simp only [mapCollect, hb]
    rw [hrec]

theorem forall₂_mem_left {α β : Type} {R : α → β → Prop} :
    ∀ {l : List α} {bs : List β}, List.Forall₂ R l bs → ∀ a ∈ l, ∃ b ∈ bs, R a b := by
  intro l bs h
  induction h with
  | nil => intro a ha; simp at ha
  | cons hab _ ih =>
    intro c hc
    rcases List.mem_cons.mp hc with h1 | h2
    · subst h1; exact ⟨_, List.mem_cons_self _ _, hab⟩
    · obtain ⟨b, hb, hr⟩ := ih c h2
      exact ⟨b, List.mem_cons_of_mem _ hb, hr⟩

end Pop

namespace Pop

/-! ### Concrete registries used as witnesses and counterexamples -/

/-- Registry with a single primitive type. -/
def regPrim : Registry := [(0, ⟨[], [], .primitive "u32"⟩)]

/-- Registry whose type 0 is the dispatchable-call aggregate (last path segment
"RuntimeCall"). -/
def regRC : Registry :=
  [(0, ⟨["pallet_utility", "RuntimeCall"], [], .variant []⟩)]

/-- Registry with an `Option` wrapping an enum: type 0 is `Option<MyEnum>`,
type 1 the enum itself. -/
def regOptEnum : Registry :=
  [(0, ⟨["Option"], [⟨"T", some 1⟩], .variant [⟨"None", [], []⟩, ⟨"Some", [], []⟩]⟩),
   (1, ⟨["MyEnum"], [], .variant [⟨"A", [], []⟩]⟩)]

/-- Registry with an `Option` wrapping a primitive: type 0 is `Option<u32>`,
type 1 the primitive. -/
def regOptPrim : Registry :=
  [(0, ⟨["Option"], [⟨"T", some 1⟩], .variant [⟨"None", [], []⟩, ⟨"Some", [], []⟩]⟩),
   (1, ⟨[], [], .primitive "u32"⟩)]

/-- Registry with a plain two-armed enum and a primitive: type 0 is the enum
`Status { Active, Inactive(since: u32) }`, type 1 the primitive. -/
def regEnum : Registry :=
  [(0, ⟨["Status"], [], .variant [⟨"Active", [], []⟩, ⟨"Inactive", [⟨some "since", 1, none⟩], []⟩]⟩),
   (1, ⟨[], [], .primitive "u32"⟩)]

/-! ### C1 -/

/-- C1: whenever the resolved descriptor trips the disallow-list check (last
path segment "RuntimeCall", or some declared type parameter named as the
aggregate directly or as a sequence of it), `type_to_param` returns
`ExtrinsicNotSupported(extrinsic_name)`. The conclusion holds for every fuel
value `fuel + 1`, including `fuel = 0` in which no recursive call could
succeed, and needs no assumption on the type's shape or `Option`-ness: the
check runs before the `Option` unwrap and before any recursive descent. -/
theorem C1_disallow_check_first
    (fuel : Nat) (extrinsic_name name : String) (registry : Registry)
    (type_id : Nat) (type_name : Option String) (type_info : TypeInfo)
    (hres : resolve registry type_id = some type_info)
    (hdis : pathIsRuntimeCall type_info = true ∨ paramIsRuntimeCall type_info = true) :
    type_to_param (fuel + 1) extrinsic_name name registry type_id type_name =
      some (.error (.ExtrinsicNotSupported extrinsic_name)) := by
  simp only [type_to_param, hres]
  rcases hdis with h | h
  · simp [h]
  · cases hp : pathIsRuntimeCall type_info
    · simp [hp, h]
    · simp [hp]

/-- Witness for C1 at a concrete registry: the "RuntimeCall" variant type of
`regRC`, rejected with zero recursion budget. -/
theorem C1_disallow_check_first_witness :
    resolve regRC 0 = some ⟨["pallet_utility", "RuntimeCall"], [], .variant []⟩ ∧
    pathIsRuntimeCall ⟨["pallet_utility", "RuntimeCall"], [], .variant []⟩ = true ∧
    type_to_param 1 "batch" "calls" regRC 0 none =
      some (.error (.ExtrinsicNotSupported "batch")) :=
  ⟨rfl, rfl,
    C1_disallow_check_first 0 "batch" "calls" regRC 0 none
      ⟨["pallet_utility", "RuntimeCall"], [], .variant []⟩ rfl (Or.inl rfl)⟩

/-! ### C5 -/

/-- C5 (amended): a type id absent from the registry makes `type_to_param` fail
with `MetadataParsingError(name)` — the same error kind used for other
malformed-shape failures, not a distinct `UnknownType` kind (params.rs line 38
uses `Error::MetadataParsingError`). -/
theorem C5_missing_id_is_metadata_parsing_error
    (fuel : Nat) (extrinsic_name name : String) (registry : Registry)
    (type_id : Nat) (type_name : Option String)
    (hres : resolve registry type_id = none) :
    type_to_param (fuel + 1) extrinsic_name name registry type_id type_name =
      some (.error (.MetadataParsingError name)) := by
  simp only [type_to_param, hres]

/-- Counterexample for C5 as frozen: the claim says a missing id fails with a
distinct `UnknownType` kind, separate from `MetadataParsingError`; on the empty
registry the resolver in fact returns exactly `MetadataParsingError` carrying
the field name (and the error type of the module has no `UnknownType` variant
at all). -/
theorem C5_counterexample :
    type_to_param 1 "ex" "field" ([] : Registry) 7 none =
      some (.error (.MetadataParsingError "field")) := rfl

/-- Witness for C5's amended theorem at the empty registry. -/
theorem C5_missing_id_witness :
    resolve ([] : Registry) 7 = none ∧
    type_to_param 1 "ex" "field" ([] : Registry) 7 none =
      some (.error (.MetadataParsingError "field")) :=
  ⟨rfl, C5_missing_id_is_metadata_parsing_error 0 "ex" "field" [] 7 none rfl⟩

/-! ### C3 -/

/-- C3 (amended): resolving a field whose type is `Option<T>` (path exactly
["Option"], first type parameter present) yields `is_optional = true` with
`type_name` and `sub_params` copied from the result of resolving `T` with the
same field name — but `is_variant` is unconditionally `false`, not copied from
the inner result (params.rs line 62). One `Option` layer is unwrapped per
recursive call. -/
theorem C3_option_unwrap_amended
    (fuel : Nat) (extrinsic_name name : String) (registry : Registry)
    (type_id sub_type_id : Nat) (type_name : Option String) (type_info : TypeInfo)
    (sub_param : Param)
    (hres : resolve registry type_id = some type_info)
    (hparam : paramIsRuntimeCall type_info = false)
    (hopt : type_info.path = ["Option"])
    (hsub : (type_info.type_params.get? 0).bind (fun param => param.ty) = some sub_type_id)
    (hinner : type_to_param fuel extrinsic_name name registry sub_type_id type_name =
      some (.ok sub_param)) :
    type_to_param (fuel + 1) extrinsic_name name registry type_id type_name =
      some (.ok { name := name, type_name := sub_param.type_name, is_optional := true,
                  sub_params := sub_param.sub_params, is_variant := false }) := by
  have hp : pathIsRuntimeCall type_info = false := by
    simp [pathIsRuntimeCall, hopt]
  simp only [type_to_param, hres, hp, hparam, hopt, hsub, hinner]
  simp

/-- Counterexample for C3 as frozen: for `Option<MyEnum>` the claim requires the
outer node's `is_variant` to equal that of resolving `MyEnum` directly; the code
resolves `MyEnum` to a node with `is_variant = true` but tags the `Option`
result with `is_variant = false`. -/
theorem C3_counterexample :
    type_to_param 2 "ex" "field" regOptEnum 0 none =
      some (.ok { name := "field", type_name := "MyEnum", is_optional := true,
                  sub_params := [{ name := "A", type_name := "", is_optional := false,
                                   sub_params := [], is_variant := true }],
                  is_variant := false }) ∧
    type_to_param 1 "ex" "field" regOptEnum 1 none =
      some (.ok { name := "field", type_name := "MyEnum", is_optional := false,
                  sub_params := [{ name := "A", type_name := "", is_optional := false,
                                   sub_params := [], is_variant := true }],
                  is_variant := true }) :=
  ⟨rfl, rfl⟩

/-- Witness for C3's amended theorem at `Option<u32>`. -/
theorem C3_option_unwrap_witness :
    resolve regOptPrim 0 =
      some ⟨["Option"], [⟨"T", some 1⟩], .variant [⟨"None", [], []⟩, ⟨"Some", [], []⟩]⟩ ∧
    type_to_param 1 "ex" "reason" regOptPrim 1 none =
      some (.ok { name := "reason", type_name := "u32", is_optional := false,
                  sub_params := [], is_variant := false }) ∧
    type_to_param 2 "ex" "reason" regOptPrim 0 none =
      some (.ok { name := "reason", type_name := "u32", is_optional := true,
                  sub_params := [], is_variant := false }) :=
  ⟨rfl, rfl,
    C3_option_unwrap_amended 1 "ex" "reason" regOptPrim 0 1 none
      ⟨["Option"], [⟨"T", some 1⟩], .variant [⟨"None", [], []⟩, ⟨"Some", [], []⟩]⟩
      ⟨"reason", "u32", false, [], false⟩ rfl rfl rfl rfl rfl⟩

end Pop

namespace Pop

/-! ### C9: the optional/variant exclusion invariant -/

mutual

/-- Whole-tree invariant: no node of the `Param` tree has `is_optional = true`
and `is_variant = true` simultaneously. -/
def noOptVariant : Param → Bool
  | .mk _ _ is_optional sub_params is_variant =>
    !(is_optional && is_variant) && noOptVariantList sub_params

/-- List form of `noOptVariant`. -/
def noOptVariantList : List Param → Bool
  | [] => true
  | p :: ps => noOptVariant p && noOptVariantList ps

end

theorem noOptVariantList_iff (l : List Param) :
    noOptVariantList l = true ↔ ∀ p ∈ l, noOptVariant p = true := by
  induction l with
  | nil => simp [noOptVariantList]
  | cons p ps ih =>
    simp only [noOptVariantList, Bool.and_eq_true, ih, List.mem_cons]
    constructor
    · rintro ⟨h1, h2⟩ q (rfl | hq)
      · exact h1
      · exact h2 q hq
    · intro h
      exact ⟨h p (Or.inl rfl), fun q hq => h q (Or.inr hq)⟩

theorem forall₂_mem_right {α β : Type} {R : α → β → Prop} :
    ∀ {l : List α} {bs : List β}, List.Forall₂ R l bs → ∀ b ∈ bs, ∃ a ∈ l, R a b := by
  intro l bs h
  induction h with
  | nil => intro b hb; simp at hb
  | cons hab _ ih =>
    intro c hc
    rcases List.mem_cons.mp hc with h1 | h2
    · subst h1; exact ⟨_, List.mem_cons_self _ _, hab⟩
    · obtain ⟨a, ha, hr⟩ := ih c h2
      exact ⟨a, List.mem_cons_of_mem _ ha, hr⟩

/-- C9: in every `Param` tree produced by a successful `type_to_param` call, no
node has `is_optional = true` and `is_variant = true` simultaneously: the
`Option` unwrap tags its result `is_variant = false`, and every other
constructor site sets `is_optional = false`. -/
theorem C9_no_optional_variant_node :
    ∀ (fuel : Nat) (extrinsic_name name : String) (registry : Registry)
      (type_id : Nat) (type_name : Option String) (p : Param),
      type_to_param fuel extrinsic_name name registry type_id type_name = some (.ok p) →
      noOptVariant p = true := by
  intro fuel
  induction fuel with
  | zero =>
    intro _ _ _ _ _ p h
    simp [type_to_param] at h
  | succ fuel ih =>
    intro extrinsic_name name registry type_id type_name p h
    simp only [type_to_param] at h
    cases hres : resolve registry type_id with
    | none => simp only [hres] at h; simp at h
    | some type_info =>
      simp only [hres] at h
      cases hpath : pathIsRuntimeCall type_info with
      | true => simp only [hpath] at h; simp at h
      | false =>
        simp only [hpath] at h
        cases hpar : paramIsRuntimeCall type_info with
        | true => simp only [hpar] at h; simp at h
        | false =>
          simp only [hpar] at h
          simp only [Bool.false_eq_true, if_false] at h
          by_cases hopt : type_info.path = ["Option"]
          · simp only [if_pos hopt] at h
            cases hsub : (type_info.type_params.get? 0).bind (fun param => param.ty) with
            | none => simp only [hsub] at h; simp at h
            | some sub_type_id =>
              simp only [hsub] at h
              cases hrec : type_to_param fuel extrinsic_name name registry sub_type_id type_name with
              | none => simp only [hrec] at h; simp at h
              | some r =>
                cases r with
                | error e => simp only [hrec] at h; simp at h
                | ok sub_param =>
                  simp only [hrec] at h
                  simp only [Option.some.injEq, Except.ok.injEq] at h
                  subst h
                  have hs := ih extrinsic_name name registry sub_type_id type_name sub_param hrec
                  cases sub_param with
                  | mk n t o s v =>
                    simp only [noOptVariant, Bool.and_eq_true] at hs ⊢
                    exact ⟨rfl, hs.2⟩
          · simp only [if_neg hopt] at h
            cases hdef : type_info.type_def with
            | primitive kind =>
              simp only [hdef] at h
              simp only [Option.some.injEq, Except.ok.injEq] at h
              subst h
              simp [noOptVariant, noOptVariantList]
            | composite fields =>
              simp only [hdef] at h
              cases hmc : mapCollect (fun field =>
                  type_to_param fuel extrinsic_name (field.name.getD name) registry
                    field.ty field.type_name) fields with
              | none => simp only [hmc] at h; simp at h
              | some r =>
                cases r with
                | error e => simp only [hmc] at h; simp at h
                | ok sub_params =>
                  simp only [hmc] at h
                  simp only [Option.some.injEq, Except.ok.injEq] at h
                  subst h
                  simp only [noOptVariant, Bool.false_and, Bool.and_false,
                    Bool.not_false, Bool.true_and]
                  rw [noOptVariantList_iff]
                  intro q hq
                  obtain ⟨field, _, hfq⟩ := forall₂_mem_right (mapCollect_ok_forall₂ hmc) q hq
                  exact ih extrinsic_name (field.name.getD name) registry field.ty
                    field.type_name q hfq
            | variant variants =>
              simp only [hdef] at h
              cases hmc : mapCollect (fun variant_param =>
                  match mapCollect (fun field =>
                      type_to_param fuel extrinsic_name
                        (field.name.getD variant_param.name) registry
                        field.ty field.type_name) variant_param.fields with
                  | none => none
                  | some (.error e) => some (.error e)
                  | some (.ok variant_sub_params) =>
                    some (.ok (Param.mk variant_param.name "" false
                      variant_sub_params true))) variants with
              | none => simp only [hmc] at h; simp at h
              | some r =>
                cases r with
                | error e => simp only [hmc] at h; simp at h
                | ok variant_params =>
                  simp only [hmc] at h
                  simp only [Option.some.injEq, Except.ok.injEq] at h
                  subst h
                  simp only [noOptVariant, Bool.false_and, Bool.and_false,
                    Bool.not_false, Bool.true_and]
                  rw [noOptVariantList_iff]
                  intro q hq
                  obtain ⟨arm, _, harm⟩ := forall₂_mem_right (mapCollect_ok_forall₂ hmc) q hq
                  cases hmi : mapCollect (fun field =>
                      type_to_param fuel extrinsic_name (field.name.getD arm.name) registry
                        field.ty field.type_name) arm.fields with
                  | none => simp only [hmi] at harm; simp at harm
                  | some ri =>
                    cases ri with
                    | error e => simp only [hmi] at harm; simp at harm
                    | ok arm_sub_params =>
                      simp only [hmi] at harm
                      simp only [Option.some.injEq, Except.ok.injEq] at harm
                      subst harm
                      simp only [noOptVariant, Bool.false_and, Bool.and_false,
                        Bool.not_false, Bool.true_and]
                      rw [noOptVariantList_iff]
                      intro w hw
                      obtain ⟨field, _, hfw⟩ :=
                        forall₂_mem_right (mapCollect_ok_forall₂ hmi) w hw
                      exact ih extrinsic_name (field.name.getD arm.name) registry field.ty
                        field.type_name w hfw
            | array =>
              simp only [hdef] at h
              simp only [Option.some.injEq, Except.ok.injEq] at h
              subst h
              simp [noOptVariant, noOptVariantList]
            | sequence =>
              simp only [hdef] at h
              simp only [Option.some.injEq, Except.ok.injEq] at h
              subst h
              simp [noOptVariant, noOptVariantList]
            | tuple =>
              simp only [hdef] at h
              simp only [Option.some.injEq, Except.ok.injEq] at h
              subst h
              simp [noOptVariant, noOptVariantList]
            | compact =>
              simp only [hdef] at h
              simp only [Option.some.injEq, Except.ok.injEq] at h
              subst h
              simp [noOptVariant, noOptVariantList]
            | bitSequence => simp only [hdef] at h; simp at h

/-- Witness for C9 at the `Option<MyEnum>` registry, whose tree has an optional
node, a variant node, and variant children. -/
theorem C9_no_optional_variant_node_witness :
    type_to_param 2 "ex" "field" regOptEnum 0 none =
      some (.ok { name := "field", type_name := "MyEnum", is_optional := true,
                  sub_params := [{ name := "A", type_name := "", is_optional := false,
                                   sub_params := [], is_variant := true }],
                  is_variant := false }) ∧
    noOptVariant { name := "field", type_name := "MyEnum", is_optional := true,
                   sub_params := [{ name := "A", type_name := "", is_optional := false,
                                    sub_params := [], is_variant := true }],
                   is_variant := false } = true :=
  ⟨rfl, C9_no_optional_variant_node 2 "ex" "field" regOptEnum 0 none _ rfl⟩

end Pop

namespace Pop

/-! ### Evaluation lemmas for the composite and variant branches -/

theorem type_to_param_composite_eq
    (fuel : Nat) (extrinsic_name name : String) (registry : Registry)
    (type_id : Nat) (type_name : Option String) (type_info : TypeInfo)
    (fields : List Field)
    (hres : resolve registry type_id = some type_info)
    (hpath : pathIsRuntimeCall type_info = false)
    (hpar : paramIsRuntimeCall type_info = false)
    (hopt : type_info.path ≠ ["Option"])
    (hdef : type_info.type_def = .composite fields) :
    type_to_param (fuel + 1) extrinsic_name name registry type_id type_name =
      match mapCollect (fun field =>
          type_to_param fuel extrinsic_name (field.name.getD name) registry
            field.ty field.type_name) fields with
      | none => none
      | some (.error e) => some (.error e)
      | some (.ok sub_params) =>
        some (.ok (Param.mk name (format_type type_info registry) false sub_params false)) := by
  simp only [type_to_param, hres, hpath, hpar, Bool.false_eq_true, if_false]
  rw [if_neg hopt]
  simp only [hdef]

theorem type_to_param_variant_eq
    (fuel : Nat) (extrinsic_name name : String) (registry : Registry)
    (type_id : Nat) (type_name : Option String) (type_info : TypeInfo)
    (variants : List Variant)
    (hres : resolve registry type_id = some type_info)
    (hpath : pathIsRuntimeCall type_info = false)
    (hpar : paramIsRuntimeCall type_info = false)
    (hopt : type_info.path ≠ ["Option"])
    (hdef : type_info.type_def = .variant variants) :
    type_to_param (fuel + 1) extrinsic_name name registry type_id type_name =
      match mapCollect (fun variant_param =>
          match mapCollect (fun field =>
              type_to_param fuel extrinsic_name
                (field.name.getD variant_param.name) registry
                field.ty field.type_name) variant_param.fields with
          | none => none
          | some (.error e) => some (.error e)
          | some (.ok variant_sub_params) =>
            some (.ok (Param.mk variant_param.name "" false variant_sub_params true)))
        variants with
      | none => none
      | some (.error e) => some (.error e)
      | some (.ok variant_params) =>
        some (.ok (Param.mk name (format_type type_info registry) false variant_params true)) := by
  simp only [type_to_param, hres, hpath, hpar, Bool.false_eq_true, if_false]
  rw [if_neg hopt]
  simp only [hdef]

end Pop

namespace Pop

/-! ### C7, C6, C8 -/

/-- C7: a variant-shaped type with K arms whose fields all resolve successfully
yields a node with `is_variant = true` and `sub_params` of length K in declared
arm order; each arm's synthetic child has `is_variant = true`, the arm's name,
empty `type_name`, and `sub_params` of length equal to the arm's declared field
count, each arm field resolved with its own name falling back to the arm's
name when absent. -/
theorem C7_variant_structure
    (fuel : Nat) (extrinsic_name name : String) (registry : Registry)
    (type_id : Nat) (type_name : Option String) (type_info : TypeInfo)
    (variants : List Variant) (p : Param)
    (hres : resolve registry type_id = some type_info)
    (hpath : pathIsRuntimeCall type_info = false)
    (hpar : paramIsRuntimeCall type_info = false)
    (hopt : type_info.path ≠ ["Option"])
    (hdef : type_info.type_def = .variant variants)
    (hok : type_to_param (fuel + 1) extrinsic_name name registry type_id type_name =
      some (.ok p)) :
    p.is_variant = true ∧ p.sub_params.length = variants.length ∧
      List.Forall₂ (fun arm c =>
        c.name = arm.name ∧ c.is_variant = true ∧ c.type_name = "" ∧
          c.sub_params.length = arm.fields.length ∧
          List.Forall₂ (fun field q =>
            type_to_param fuel extrinsic_name (field.name.getD arm.name) registry
              field.ty field.type_name = some (.ok q)) arm.fields c.sub_params)
        variants p.sub_params := by
  rw [type_to_param_variant_eq fuel extrinsic_name name registry type_id type_name
    type_info variants hres hpath hpar hopt hdef] at hok
  split at hok
  · simp at hok
  · simp at hok
  · rename_i variant_params heq
    simp only [Option.some.injEq, Except.ok.injEq] at hok
    subst hok
    have hf := mapCollect_ok_forall₂ heq
    refine ⟨rfl, (List.Forall₂.length_eq hf).symm, ?_⟩
    refine List.Forall₂.imp ?_ hf
    intro arm c harm
    split at harm
    · simp at harm
    · simp at harm
    · rename_i arm_sub_params hinner
      simp only [Option.some.injEq, Except.ok.injEq] at harm
      subst harm
      exact ⟨rfl, rfl, rfl,
        (List.Forall₂.length_eq (mapCollect_ok_forall₂ hinner)).symm,
        mapCollect_ok_forall₂ hinner⟩

/-- Witness for C7 at the two-armed `Status` enum of `regEnum`. -/
theorem C7_variant_structure_witness :
    type_to_param 2 "ex" "status" regEnum 0 none =
      some (.ok { name := "status", type_name := "Status", is_optional := false,
                  sub_params :=
                    [{ name := "Active", type_name := "", is_optional := false,
                       sub_params := [], is_variant := true },
                     { name := "Inactive", type_name := "", is_optional := false,
                       sub_params := [{ name := "since", type_name := "u32",
                                        is_optional := false, sub_params := [],
                                        is_variant := false }],
                       is_variant := true }],
                  is_variant := true }) ∧
    ({ name := "status", type_name := "Status", is_optional := false,
       sub_params :=
         [{ name := "Active", type_name := "", is_optional := false,
            sub_params := [], is_variant := true },
          { name := "Inactive", type_name := "", is_optional := false,
            sub_params := [{ name := "since", type_name := "u32",
                             is_optional := false, sub_params := [],
                             is_variant := false }],
            is_variant := true }],
       is_variant := true } : Param).is_variant = true ∧
    ({ name := "status", type_name := "Status", is_optional := false,
       sub_params :=
         [{ name := "Active", type_name := "", is_optional := false,
            sub_params := [], is_variant := true },
          { name := "Inactive", type_name := "", is_optional := false,
            sub_params := [{ name := "since", type_name := "u32",
                             is_optional := false, sub_params := [],
                             is_variant := false }],
            is_variant := true }],
       is_variant := true } : Param).sub_params.length = 2 :=
  ⟨rfl,
    (C7_variant_structure 1 "ex" "status" regEnum 0 none
      ⟨["Status"], [], .variant [⟨"Active", [], []⟩, ⟨"Inactive", [⟨some "since", 1, none⟩], []⟩]⟩
      [⟨"Active", [], []⟩, ⟨"Inactive", [⟨some "since", 1, none⟩], []⟩] _
      rfl rfl rfl (by simp) rfl rfl).1,
    (C7_variant_structure 1 "ex" "status" regEnum 0 none
      ⟨["Status"], [], .variant [⟨"Active", [], []⟩, ⟨"Inactive", [⟨some "since", 1, none⟩], []⟩]⟩
      [⟨"Active", [], []⟩, ⟨"Inactive", [⟨some "since", 1, none⟩], []⟩] _
      rfl rfl rfl (by simp) rfl rfl).2.1⟩

/-- C6 (amended): in the tree produced for a variant-shaped type, each per-arm
synthetic child node has `type_name = ""` (and `is_variant = true`), but the
enclosing variant container node itself carries the formatted type signature,
which is not the empty string for a path-named type. -/
theorem C6_variant_type_name
    (fuel : Nat) (extrinsic_name name : String) (registry : Registry)
    (type_id : Nat) (type_name : Option String) (type_info : TypeInfo)
    (variants : List Variant) (p : Param)
    (hres : resolve registry type_id = some type_info)
    (hpath : pathIsRuntimeCall type_info = false)
    (hpar : paramIsRuntimeCall type_info = false)
    (hopt : type_info.path ≠ ["Option"])
    (hdef : type_info.type_def = .variant variants)
    (hok : type_to_param (fuel + 1) extrinsic_name name registry type_id type_name =
      some (.ok p)) :
    p.is_variant = true ∧ p.type_name = format_type type_info registry ∧
      ∀ c ∈ p.sub_params, c.type_name = "" ∧ c.is_variant = true := by
  rw [type_to_param_variant_eq fuel extrinsic_name name registry type_id type_name
    type_info variants hres hpath hpar hopt hdef] at hok
  split at hok
  · simp at hok
  · simp at hok
  · rename_i variant_params heq
    simp only [Option.some.injEq, Except.ok.injEq] at hok
    subst hok
    refine ⟨rfl, rfl, ?_⟩
    intro c hc
    obtain ⟨arm, _, harm⟩ := forall₂_mem_right (mapCollect_ok_forall₂ heq) c hc
    split at harm
    · simp at harm
    · simp at harm
    · simp only [Option.some.injEq, Except.ok.injEq] at harm
      subst harm
      exact ⟨rfl, rfl⟩

/-- Counterexample for C6 as frozen: the enclosing variant container for the
`Status` enum has `is_variant = true` but `type_name = "Status"`, not the empty
string; only the per-arm children carry the empty `type_name`. -/
theorem C6_counterexample :
    type_to_param 2 "ex" "status" regEnum 0 none =
      some (.ok { name := "status", type_name := "Status", is_optional := false,
                  sub_params :=
                    [{ name := "Active", type_name := "", is_optional := false,
                       sub_params := [], is_variant := true },
                     { name := "Inactive", type_name := "", is_optional := false,
                       sub_params := [{ name := "since", type_name := "u32",
                                        is_optional := false, sub_params := [],
                                        is_variant := false }],
                       is_variant := true }],
                  is_variant := true }) ∧
    ("Status" : String) ≠ "" :=
  ⟨rfl, by decide⟩

/-- Witness for C6's amended theorem at the `Status` enum. -/
theorem C6_variant_type_name_witness :
    type_to_param 2 "ex" "status" regEnum 0 none =
      some (.ok { name := "status", type_name := "Status", is_optional := false,
                  sub_params :=
                    [{ name := "Active", type_name := "", is_optional := false,
                       sub_params := [], is_variant := true },
                     { name := "Inactive", type_name := "", is_optional := false,
                       sub_params := [{ name := "since", type_name := "u32",
                                        is_optional := false, sub_params := [],
                                        is_variant := false }],
                       is_variant := true }],
                  is_variant := true }) ∧
    ({ name := "status", type_name := "Status", is_optional := false,
       sub_params :=
         [{ name := "Active", type_name := "", is_optional := false,
            sub_params := [], is_variant := true },
          { name := "Inactive", type_name := "", is_optional := false,
            sub_params := [{ name := "since", type_name := "u32",
                             is_optional := false, sub_params := [],
                             is_variant := false }],
            is_variant := true }],
       is_variant := true } : Param).type_name =
      format_type ⟨["Status"], [],
        .variant [⟨"Active", [], []⟩, ⟨"Inactive", [⟨some "since", 1, none⟩], []⟩]⟩ regEnum :=
  ⟨rfl,
    (C6_variant_type_name 1 "ex" "status" regEnum 0 none
      ⟨["Status"], [], .variant [⟨"Active", [], []⟩, ⟨"Inactive", [⟨some "since", 1, none⟩], []⟩]⟩
      [⟨"Active", [], []⟩, ⟨"Inactive", [⟨some "since", 1, none⟩], []⟩] _
      rfl rfl rfl (by simp) rfl rfl).2.1⟩

end Pop

namespace Pop

/-- Registry with a two-field struct: a named field `nonce` and an unnamed
field, both of primitive type. -/
def regStruct : Registry :=
  [(0, ⟨["AccountInfo"], [], .composite [⟨some "nonce", 1, none⟩, ⟨none, 1, none⟩]⟩),
   (1, ⟨[], [], .primitive "u32"⟩)]

/-- C8: a composite-shaped type with N declared fields resolves to a
non-variant, non-optional node whose `sub_params` has length N in declared
order, each child the recursive resolution of the corresponding field with the
field's own name when present and the parent's name otherwise; and the first
failing field's error is returned unchanged. -/
theorem C8_composite_structure
    (fuel : Nat) (extrinsic_name name : String) (registry : Registry)
    (type_id : Nat) (type_name : Option String) (type_info : TypeInfo)
    (fields : List Field)
    (hres : resolve registry type_id = some type_info)
    (hpath : pathIsRuntimeCall type_info = false)
    (hpar : paramIsRuntimeCall type_info = false)
    (hopt : type_info.path ≠ ["Option"])
    (hdef : type_info.type_def = .composite fields) :
    (∀ p, type_to_param (fuel + 1) extrinsic_name name registry type_id type_name =
        some (.ok p) →
      p.name = name ∧ p.type_name = format_type type_info registry ∧
        p.is_optional = false ∧ p.is_variant = false ∧
        p.sub_params.length = fields.length ∧
        List.Forall₂ (fun field q =>
          type_to_param fuel extrinsic_name (field.name.getD name) registry
            field.ty field.type_name = some (.ok q)) fields p.sub_params) ∧
    (∀ (e : Error) (fields₁ : List Field) (field : Field) (fields₂ : List Field),
      fields = fields₁ ++ field :: fields₂ →
      (∀ x ∈ fields₁, ∃ b, type_to_param fuel extrinsic_name (x.name.getD name) registry
        x.ty x.type_name = some (.ok b)) →
      type_to_param fuel extrinsic_name (field.name.getD name) registry
        field.ty field.type_name = some (.error e) →
      type_to_param (fuel + 1) extrinsic_name name registry type_id type_name =
        some (.error e)) := by
  have heval := type_to_param_composite_eq fuel extrinsic_name name registry type_id
    type_name type_info fields hres hpath hpar hopt hdef
  constructor
  · intro p hok
    rw [heval] at hok
    split at hok
    · simp at hok
    · simp at hok
    · rename_i sub_params heq
      simp only [Option.some.injEq, Except.ok.injEq] at hok
      subst hok
      exact ⟨rfl, rfl, rfl, rfl,
        (List.Forall₂.length_eq (mapCollect_ok_forall₂ heq)).symm,
        mapCollect_ok_forall₂ heq⟩
  · intro e fields₁ field fields₂ hsplit hpre hfield
    rw [heval]
    subst hsplit
    simp only [mapCollect_error_of_first fields₂ hpre hfield]

/-- Witness for C8 at the two-field struct of `regStruct`: the unnamed second
field inherits the parent name "info". -/
theorem C8_composite_structure_witness :
    type_to_param 2 "ex" "info" regStruct 0 none =
      some (.ok { name := "info", type_name := "AccountInfo", is_optional := false,
                  sub_params :=
                    [{ name := "nonce", type_name := "u32", is_optional := false,
                       sub_params := [], is_variant := false },
                     { name := "info", type_name := "u32", is_optional := false,
                       sub_params := [], is_variant := false }],
                  is_variant := false }) ∧
    ({ name := "info", type_name := "AccountInfo", is_optional := false,
       sub_params :=
         [{ name := "nonce", type_name := "u32", is_optional := false,
            sub_params := [], is_variant := false },
          { name := "info", type_name := "u32", is_optional := false,
            sub_params := [], is_variant := false }],
       is_variant := false } : Param).sub_params.length = 2 :=
  ⟨rfl,
    ((C8_composite_structure 1 "ex" "info" regStruct 0 none
        ⟨["AccountInfo"], [], .composite [⟨some "nonce", 1, none⟩, ⟨none, 1, none⟩]⟩
        [⟨some "nonce", 1, none⟩, ⟨none, 1, none⟩]
        rfl rfl rfl (by simp) rfl).1 _ rfl).2.2.2.2.1⟩

end Pop

namespace Pop

/-! ### Lemmas about the per-extrinsic field loop -/

theorem parse_params_supported
    (fuel : Nat) (registry : Registry) (extrinsic_name : String) :
    ∀ {fields : List Field} {params : List Param},
      parse_params fuel registry extrinsic_name fields = some (.ok (params, true)) →
      List.Forall₂ (fun field q =>
        field_to_param fuel registry extrinsic_name field = some (.ok q)) fields params := by
  intro fields
  induction fields with
  | nil =>
    intro params h
    simp only [parse_params, Option.some.injEq, Except.ok.injEq, Prod.mk.injEq] at h
    rw [← h.1]
    exact List.Forall₂.nil
  | cons field fields ih =>
    intro params h
    simp only [parse_params] at h
    cases hf : field_to_param fuel registry extrinsic_name field with
    | none => simp only [hf] at h; simp at h
    | some r =>
      cases r with
      | error e =>
        cases e with
        | ExtrinsicNotSupported s => simp only [hf] at h; simp at h
        | MetadataParsingError s => simp only [hf] at h; simp at h
        | PalletNotFound s => simp only [hf] at h; simp at h
        | ParamProcessingError => simp only [hf] at h; simp at h
      | ok param =>
        simp only [hf] at h
        cases hrec : parse_params fuel registry extrinsic_name fields with
        | none => simp only [hrec] at h; simp at h
        | some r2 =>
          cases r2 with
          | error e2 => simp only [hrec] at h; simp at h
          | ok pr =>
            obtain ⟨ps, sup⟩ := pr
            cases sup with
            | true =>
              simp only [hrec, Option.some.injEq, Except.ok.injEq, Prod.mk.injEq] at h
              rw [← h.1]
              exact List.Forall₂.cons hf (ih hrec)
            | false =>
              simp only [hrec] at h
              simp at h

theorem parse_params_unsupported
    (fuel : Nat) (registry : Registry) (extrinsic_name : String) :
    ∀ {fields : List Field} {params : List Param},
      parse_params fuel registry extrinsic_name fields = some (.ok (params, false)) →
      params = [] ∧ ∃ field ∈ fields, ∃ s,
        field_to_param fuel registry extrinsic_name field =
          some (.error (.ExtrinsicNotSupported s)) := by
  intro fields
  induction fields with
  | nil =>
    intro params h
    simp only [parse_params, Option.some.injEq, Except.ok.injEq, Prod.mk.injEq] at h
    simp at h
  | cons field fields ih =>
    intro params h
    simp only [parse_params] at h
    cases hf : field_to_param fuel registry extrinsic_name field with
    | none => simp only [hf] at h; simp at h
    | some r =>
      cases r with
      | error e =>
        cases e with
        | ExtrinsicNotSupported s =>
          simp only [hf, Option.some.injEq, Except.ok.injEq, Prod.mk.injEq] at h
          exact ⟨h.1.symm, field, List.mem_cons_self field fields, s, hf⟩
        | MetadataParsingError s => simp only [hf] at h; simp at h
        | PalletNotFound s => simp only [hf] at h; simp at h
        | ParamProcessingError => simp only [hf] at h; simp at h
      | ok param =>
        simp only [hf] at h
        cases hrec : parse_params fuel registry extrinsic_name fields with
        | none => simp only [hrec] at h; simp at h
        | some r2 =>
          cases r2 with
          | error e2 => simp only [hrec] at h; simp at h
          | ok pr =>
            obtain ⟨ps, sup⟩ := pr
            cases sup with
            | true =>
              simp only [hrec] at h
              simp at h
            | false =>
              simp only [hrec, Option.some.injEq, Except.ok.injEq, Prod.mk.injEq] at h
              obtain ⟨hps, hmem⟩ := ih hrec
              obtain ⟨fld, hfld, s, hs⟩ := hmem
              exact ⟨h.1.symm, fld, List.mem_cons_of_mem field hfld, s, hs⟩

/-! ### C4 -/

/-- C4: for every call variant, if resolution of one of its fields fails with
`ExtrinsicNotSupported`, the produced `Extrinsic` is marked unsupported with
`params` exactly empty and the fixed placeholder documentation; if no field
fails that way (and the extrinsic was produced) `params` has exactly one entry
per declared field, in order. Sibling extrinsics and pallets are unaffected:
a list of individually produced extrinsics (or pallets) always collects into a
successfully produced list. -/
theorem C4_unsupported_all_or_nothing (fuel : Nat) (registry : Registry) :
    (∀ (variant : Variant) (ext : Extrinsic),
      parse_extrinsic fuel registry variant = some (.ok ext) →
      ((∃ field ∈ variant.fields, ∃ s,
          field_to_param fuel registry variant.name field =
            some (.error (.ExtrinsicNotSupported s))) →
        ext.is_supported = false ∧ ext.params = [] ∧
          ext.docs = "Extrinsic Not Supported") ∧
      ((∀ field ∈ variant.fields, ∀ s,
          field_to_param fuel registry variant.name field ≠
            some (.error (.ExtrinsicNotSupported s))) →
        ext.is_supported = true ∧ ext.params.length = variant.fields.length ∧
          List.Forall₂ (fun field q =>
            field_to_param fuel registry variant.name field = some (.ok q))
            variant.fields ext.params)) ∧
    (∀ (variants : List Variant) (exts : List Extrinsic),
      List.Forall₂ (fun v ext => parse_extrinsic fuel registry v = some (.ok ext))
        variants exts →
      mapCollect (parse_extrinsic fuel registry) variants = some (.ok exts)) ∧
    (∀ (pallets : List PalletMeta) (out : List Pallet),
      List.Forall₂ (fun q pl => parse_pallet fuel registry q = some (.ok pl))
        pallets out →
      parse_chain_metadata fuel registry pallets = some (.ok out)) := by
  refine ⟨?_, fun variants exts h => forall₂_mapCollect h,
    fun pallets out h => forall₂_mapCollect h⟩
  intro variant ext hok
  simp only [parse_extrinsic] at hok
  cases hpp : parse_params fuel registry variant.name variant.fields with
  | none => simp only [hpp] at hok; simp at hok
  | some r =>
    cases r with
    | error e => simp only [hpp] at hok; simp at hok
    | ok pr =>
      obtain ⟨params, sup⟩ := pr
      simp only [hpp, Option.some.injEq, Except.ok.injEq] at hok
      subst hok
      constructor
      · intro hex
        cases sup with
        | true =>
          obtain ⟨field, hmem, s, hs⟩ := hex
          have hall := parse_params_supported fuel registry variant.name hpp
          obtain ⟨q, _, hq⟩ := forall₂_mem_left hall field hmem
          rw [hs] at hq
          simp at hq
        | false =>
          obtain ⟨hps, _⟩ := parse_params_unsupported fuel registry variant.name hpp
          subst hps
          exact ⟨rfl, rfl, rfl⟩
      · intro hnone
        cases sup with
        | true =>
          have hall := parse_params_supported fuel registry variant.name hpp
          exact ⟨rfl, (List.Forall₂.length_eq hall).symm, hall⟩
        | false =>
          obtain ⟨_, field, hmem, s, hs⟩ :=
            parse_params_unsupported fuel registry variant.name hpp
          exact absurd hs (hnone field hmem s)

/-- Witness for C4: a call variant "batch" whose single field has the
"RuntimeCall" type is produced as an unsupported extrinsic with empty params
and the placeholder documentation. -/
theorem C4_unsupported_all_or_nothing_witness :
    parse_extrinsic 1 regRC ⟨"batch", [⟨some "call", 0, none⟩], []⟩ =
      some (.ok ⟨"batch", "Extrinsic Not Supported", [], false⟩) ∧
    ((⟨"batch", "Extrinsic Not Supported", [], false⟩ : Extrinsic).is_supported = false ∧
      (⟨"batch", "Extrinsic Not Supported", [], false⟩ : Extrinsic).params = [] ∧
      (⟨"batch", "Extrinsic Not Supported", [], false⟩ : Extrinsic).docs =
        "Extrinsic Not Supported") :=
  ⟨rfl,
    ((C4_unsupported_all_or_nothing 1 regRC).1 ⟨"batch", [⟨some "call", 0, none⟩], []⟩
      ⟨"batch", "Extrinsic Not Supported", [], false⟩ rfl).1
      ⟨⟨some "call", 0, none⟩, List.mem_cons_self _ _, "batch", rfl⟩⟩

end Pop

namespace Pop

/-! ### C10 -/

theorem parse_params_error_of_first
    (fuel : Nat) (registry : Registry) (extrinsic_name : String) (e : Error)
    (hne : ∀ s, e ≠ .ExtrinsicNotSupported s) :
    ∀ {fields₁ : List Field} (field : Field) (fields₂ : List Field),
      (∀ x ∈ fields₁, ∃ b, field_to_param fuel registry extrinsic_name x = some (.ok b)) →
      field_to_param fuel registry extrinsic_name field = some (.error e) →
      parse_params fuel registry extrinsic_name (fields₁ ++ field :: fields₂) =
        some (.error e) := by
  intro fields₁
  induction fields₁ with
  | nil =>
    intro field fields₂ _ hfield
    cases e with
    | ExtrinsicNotSupported s => exact absurd rfl (hne s)
    | MetadataParsingError s => simp only [List.nil_append, parse_params, hfield]
    | PalletNotFound s => simp only [List.nil_append, parse_params, hfield]
    | ParamProcessingError => simp only [List.nil_append, parse_params, hfield]
  | cons x fields₁ ih =>
    intro field fields₂ hok hfield
    obtain ⟨b, hb⟩ := hok x (List.mem_cons_self x fields₁)
    have hrec := ih field fields₂ (fun y hy => hok y (List.mem_cons_of_mem x hy)) hfield
    rw [List.cons_append]
    simp only [parse_params, hb]
    rw [hrec]

/-- C10: if resolving some field of some extrinsic fails with an error other
than `ExtrinsicNotSupported` (for example `MetadataParsingError`), and every
pallet, variant and field processed before it succeeded, `parse_chain_metadata`
returns that error: the failure aborts the entire metadata parse (the result
carries no pallet list), unlike `ExtrinsicNotSupported`, which is caught
locally in the field loop. -/
theorem C10_other_errors_abort_whole_parse
    (fuel : Nat) (registry : Registry) (e : Error)
    (pre post : List PalletMeta) (pm : PalletMeta)
    (vpre vpost : List Variant) (v : Variant)
    (fpre fpost : List Field) (field : Field)
    (hvs : pm.call_variants = some (vpre ++ v :: vpost))
    (hfields : v.fields = fpre ++ field :: fpost)
    (hpre : ∀ q ∈ pre, ∃ pl, parse_pallet fuel registry q = some (.ok pl))
    (hvpre : ∀ w ∈ vpre, ∃ ex, parse_extrinsic fuel registry w = some (.ok ex))
    (hfpre : ∀ x ∈ fpre, ∃ b, field_to_param fuel registry v.name x = some (.ok b))
    (hfield : field_to_param fuel registry v.name field = some (.error e))
    (hne : ∀ s, e ≠ .ExtrinsicNotSupported s) :
    parse_chain_metadata fuel registry (pre ++ pm :: post) = some (.error e) := by
  have h1 : parse_params fuel registry v.name v.fields = some (.error e) := by
    rw [hfields]
    exact parse_params_error_of_first fuel registry v.name e hne field fpost hfpre hfield
  have h2 : parse_extrinsic fuel registry v = some (.error e) := by
    simp only [parse_extrinsic, h1]
  have h3 : mapCollect (parse_extrinsic fuel registry) (vpre ++ v :: vpost) =
      some (.error e) := mapCollect_error_of_first vpost hvpre h2
  have h4 : parse_pallet fuel registry pm = some (.error e) := by
    simp only [parse_pallet, hvs]
    rw [h3]
  exact mapCollect_error_of_first post hpre h4

/-- Witness for C10: a single pallet with a single variant whose only field has
an unresolvable type id aborts the whole parse with `MetadataParsingError`. -/
theorem C10_other_errors_abort_whole_parse_witness :
    field_to_param 1 ([] : Registry) "ext" ⟨none, 0, none⟩ =
      some (.error (.MetadataParsingError "Unnamed")) ∧
    parse_chain_metadata 1 ([] : Registry)
        [⟨"P", [], some [⟨"ext", [⟨none, 0, none⟩], []⟩]⟩] =
      some (.error (.MetadataParsingError "Unnamed")) :=
  ⟨rfl,
    C10_other_errors_abort_whole_parse 1 [] (.MetadataParsingError "Unnamed")
      [] [] ⟨"P", [], some [⟨"ext", [⟨none, 0, none⟩], []⟩]⟩
      [] [] ⟨"ext", [⟨none, 0, none⟩], []⟩
      [] [] ⟨none, 0, none⟩
      rfl rfl (by simp) (by simp) (by simp) rfl
      (fun s h => Error.noConfusion h)⟩

end Pop

namespace Pop

/-! ### C2: the allowed type-reference graph and termination -/

/-- The type ids into which `type_to_param` recurses at a given descriptor: the
first type parameter for an `Option`, the field types of a composite, the arm
field types of a variant, and nothing otherwise. -/
def children (type_info : TypeInfo) : List Nat :=
  if type_info.path = ["Option"] then
    match (type_info.type_params.get? 0).bind (fun param => param.ty) with
    | some sub_type_id => [sub_type_id]
    | none => []
  else
    match type_info.type_def with
    | .composite fields => fields.map (fun field => field.ty)
    | .variant variants =>
        (variants.map (fun variant_param =>
          variant_param.fields.map (fun field => field.ty))).join
    | _ => []

/-- One recursion step of the resolver in the type-reference graph: `a`
resolves, passes the disallow-list check, and references `b` as a recursion
target. Nodes caught by the disallow-list check (and unresolvable ids) have no
outgoing edges, so a cycle of `Refs`-edges is exactly a cycle of the
type-reference graph that avoids every disallowed type. -/
def Refs (registry : Registry) (a b : Nat) : Prop :=
  ∃ type_info, resolve registry a = some type_info ∧
    pathIsRuntimeCall type_info = false ∧ paramIsRuntimeCall type_info = false ∧
    b ∈ children type_info

theorem type_to_param_none_step (fuel : Nat) (extrinsic_name : String)
    (registry : Registry) (type_id : Nat) :
    (∃ name type_name,
      type_to_param (fuel + 1) extrinsic_name name registry type_id type_name = none) →
    ∃ b, Refs registry type_id b ∧
      ∃ name type_name,
        type_to_param fuel extrinsic_name name registry b type_name = none := by
  rintro ⟨name, type_name, h⟩
  simp only [type_to_param] at h
  cases hres : resolve registry type_id with
  | none => simp [hres] at h
  | some type_info =>
    simp only [hres] at h
    cases hpath : pathIsRuntimeCall type_info with
    | true => simp [hpath] at h
    | false =>
      simp only [hpath] at h
      cases hpar : paramIsRuntimeCall type_info with
      | true => simp [hpar] at h
      | false =>
        simp only [hpar, Bool.false_eq_true, if_false] at h
        by_cases hopt : type_info.path = ["Option"]
        · simp only [if_pos hopt] at h
          cases hsub : (type_info.type_params.get? 0).bind (fun param => param.ty) with
          | none => simp only [hsub] at h; simp at h
          | some sub_type_id =>
            simp only [hsub] at h
            cases hrec : type_to_param fuel extrinsic_name name registry
                sub_type_id type_name with
            | none =>
              refine ⟨sub_type_id, ⟨type_info, hres, hpath, hpar, ?_⟩,
                name, type_name, hrec⟩
              simp only [children, if_pos hopt, hsub]
              simp
            | some r =>
              cases r with
              | error e => simp [hrec] at h
              | ok q => simp [hrec] at h
        · rw [if_neg hopt] at h
          cases hdef : type_info.type_def with
          | primitive kind => simp [hdef] at h
          | composite fields =>
            simp only [hdef] at h
            cases hmc : mapCollect (fun field =>
                type_to_param fuel extrinsic_name (field.name.getD name) registry
                  field.ty field.type_name) fields with
            | none =>
              obtain ⟨field, hfmem, hfn⟩ := mapCollect_none hmc
              refine ⟨field.ty, ⟨type_info, hres, hpath, hpar, ?_⟩,
                field.name.getD name, field.type_name, hfn⟩
              simp only [children, if_neg hopt, hdef]
              exact List.mem_map.mpr ⟨field, hfmem, rfl⟩
            | some r =>
              cases r with
              | error e => simp [hmc] at h
              | ok sub_params => simp [hmc] at h
          | variant variants =>
            simp only [hdef] at h
            cases hmc : mapCollect (fun variant_param =>
                match mapCollect (fun field =>
                    type_to_param fuel extrinsic_name
                      (field.name.getD variant_param.name) registry
                      field.ty field.type_name) variant_param.fields with
                | none => none
                | some (.error e) => some (.error e)
                | some (.ok variant_sub_params) =>
                  some (.ok (Param.mk variant_param.name "" false
                    variant_sub_params true))) variants with
            | none =>
              obtain ⟨arm, harm_mem, harm⟩ := mapCollect_none hmc
              cases hmi : mapCollect (fun field =>
                  type_to_param fuel extrinsic_name (field.name.getD arm.name) registry
                    field.ty field.type_name) arm.fields with
              | none =>
                obtain ⟨field, hfmem, hfn⟩ := mapCollect_none hmi
                refine ⟨field.ty, ⟨type_info, hres, hpath, hpar, ?_⟩,
                  field.name.getD arm.name, field.type_name, hfn⟩
                simp only [children, if_neg hopt, hdef]
                exact List.mem_join.mpr ⟨arm.fields.map (fun field => field.ty),
                  List.mem_map.mpr ⟨arm, harm_mem, rfl⟩,
                  List.mem_map.mpr ⟨field, hfmem, rfl⟩⟩
              | some ri =>
                cases ri with
                | error e => simp [hmi] at harm
                | ok arm_sub_params => simp [hmi] at harm
            | some r =>
              cases r with
              | error e => simp [hmc] at h
              | ok variant_params => simp [hmc] at h
          | array => simp [hdef] at h
          | sequence => simp [hdef] at h
          | tuple => simp [hdef] at h
          | compact => simp [hdef] at h
          | bitSequence => simp [hdef] at h

end Pop

namespace Pop

theorem type_to_param_none_chain (extrinsic_name : String) (registry : Registry) :
    ∀ (fuel : Nat) (type_id : Nat),
      (∃ name type_name,
        type_to_param fuel extrinsic_name name registry type_id type_name = none) →
      ∃ f : Nat → Nat, f 0 = type_id ∧ ∀ i < fuel, Refs registry (f i) (f (i + 1)) := by
  intro fuel
  induction fuel with
  | zero =>
    intro type_id _
    exact ⟨fun _ => type_id, rfl, fun i hi => absurd hi (Nat.not_lt_zero i)⟩
  | succ fuel ih =>
    intro type_id hnone
    obtain ⟨b, hab, hb⟩ := type_to_param_none_step fuel extrinsic_name registry type_id hnone
    obtain ⟨g, hg0, hg⟩ := ih b hb
    refine ⟨fun i => Nat.casesOn i type_id (fun j => g j), rfl, ?_⟩
    intro i hi
    cases i with
    | zero => simpa [hg0] using hab
    | succ j => exact hg j (by omega)

theorem refs_source_mem {registry : Registry} {a b : Nat} (h : Refs registry a b) :
    a ∈ registry.map Prod.fst := by
  obtain ⟨type_info, hres, -, -, -⟩ := h
  unfold resolve at hres
  cases hf : List.find? (fun e => e.fst = a) registry with
  | none => rw [hf] at hres; simp at hres
  | some pr =>
    have hmem := List.mem_of_find?_eq_some hf
    have hp := List.find?_some hf
    simp only [decide_eq_true_eq] at hp
    exact hp ▸ List.mem_map_of_mem Prod.fst hmem

theorem no_long_refs_chain {registry : Registry}
    (H : ∀ a, ¬ Relation.TransGen (Refs registry) a a)
    (f : Nat → Nat)
    (hchain : ∀ i < registry.length + 1, Refs registry (f i) (f (i + 1))) : False := by
  classical
  have hmaps : ∀ i ∈ Finset.range (registry.length + 1),
      f i ∈ (registry.map Prod.fst).toFinset := by
    intro i hi
    rw [List.mem_toFinset]
    exact refs_source_mem (hchain i (Finset.mem_range.mp hi))
  have hcard : (registry.map Prod.fst).toFinset.card <
      (Finset.range (registry.length + 1)).card := by
    rw [Finset.card_range]
    have h1 := (registry.map Prod.fst).toFinset_card_le
    simp only [List.length_map] at h1
    omega
  obtain ⟨i, hi, j, hj, hne, heq⟩ :=
    Finset.exists_ne_map_eq_of_card_lt_of_maps_to hcard hmaps
  have hi' := Finset.mem_range.mp hi
  have hj' := Finset.mem_range.mp hj
  have htg : ∀ (q p : Nat), p < q → q ≤ registry.length + 1 →
      Relation.TransGen (Refs registry) (f p) (f q) := by
    intro q
    induction q with
    | zero => intro p hp _; omega
    | succ q ihq =>
      intro p hp hqn
      rcases Nat.lt_succ_iff_lt_or_eq.mp hp with hlt | heqp
      · exact Relation.TransGen.tail (ihq p hlt (by omega)) (hchain q (by omega))
      · subst heqp
        exact Relation.TransGen.single (hchain p (by omega))
  rcases Nat.lt_or_ge i j with hij | hij
  · have htrans := htg j i hij (by omega)
    rw [heq] at htrans
    exact H (f j) htrans
  · have hji : j < i := by omega
    have htrans := htg i j hji (by omega)
    rw [heq] at htrans
    exact H (f j) htrans

/-- C2: if the only cycles of the type-reference graph pass through a type
caught by the disallow-list check — formalised as: the recursion-step relation
`Refs`, whose edges leave only resolvable types that pass the check, admits no
cycle — then `type_to_param` terminates on every starting type id (fuel
`registry.length + 1` already suffices, so the `none` fuel-exhaustion outcome
is unreachable), and every descent chain of recursion steps visits each type id
(hence each `(type_id, field_name)` pair) at most once. -/
theorem C2_termination_and_no_revisit
    (registry : Registry) (extrinsic_name : String)
    (H : ∀ a, ¬ Relation.TransGen (Refs registry) a a) :
    (∀ (type_id : Nat) (name : String) (type_name : Option String),
      type_to_param (registry.length + 1) extrinsic_name name registry type_id
        type_name ≠ none) ∧
    (∀ (a : Nat) (l : List Nat), List.Chain (Refs registry) a l → (a :: l).Nodup) := by
  constructor
  · intro type_id name type_name hnone
    obtain ⟨f, hf0, hchain⟩ :=
      type_to_param_none_chain extrinsic_name registry (registry.length + 1) type_id
        ⟨name, type_name, hnone⟩
    exact no_long_refs_chain H f hchain
  · have hmem : ∀ (l : List Nat) (a b : Nat), List.Chain (Refs registry) a l → b ∈ l →
        Relation.TransGen (Refs registry) a b := by
      intro l
      induction l with
      | nil => intro a b _ hb; simp at hb
      | cons c l' ihl =>
        intro a b hch hb
        rcases List.chain_cons.mp hch with ⟨hac, hcl⟩
        rcases List.mem_cons.mp hb with rfl | hb'
        · exact Relation.TransGen.single hac
        · exact Relation.TransGen.head hac (ihl c b hcl hb')
    intro a l
    induction l generalizing a with
    | nil => intro _; simp
    | cons c l' ihl =>
      intro hch
      rcases List.chain_cons.mp hch with ⟨hac, hcl⟩
      rw [List.nodup_cons]
      refine ⟨?_, ihl c hcl⟩
      intro hmem_a
      rcases List.mem_cons.mp hmem_a with rfl | ha'
      · exact H a (Relation.TransGen.single hac)
      · exact H a (Relation.TransGen.head hac (hmem l' c a hcl ha'))

/-- Witness for C2 at the empty registry, which trivially has no `Refs` cycle:
resolution with fuel `length + 1 = 1` does not exhaust its fuel. -/
theorem C2_termination_witness :
    type_to_param 1 "ex" "field" ([] : Registry) 0 none ≠ none := by
  have H : ∀ a, ¬ Relation.TransGen (Refs ([] : Registry)) a a := by
    have noRefs : ∀ x y : Nat, ¬ Refs ([] : Registry) x y := by
      intro x y hxy
      obtain ⟨type_info, hres, -, -, -⟩ := hxy
      simp [resolve] at hres
    intro a h
    cases h with
    | single hxy => exact noRefs _ _ hxy
    | tail h2 hxy => exact noRefs _ _ hxy
  exact (C2_termination_and_no_revisit [] "ex" H).1 0 "field" none

end Pop
